import Mathlib

/-!
Verification development for the Circuit_Knowdge_Graph extraction-and-fusion
pipeline (Python sources under SRC/).  The Python code is shallowly embedded:
Python floats become exact rationals (all weights and thresholds in the code
are small decimal literals), Python lists become `List`, Python `set()` of
strings becomes `Finset String` via `List.toFinset`, and the JSON dictionaries
flowing between stages become structures holding the fields the embedded
functions read or write.  Fields that are only carried along and never
inspected by any embedded operation (timestamps, nested `properties` dicts,
metadata blocks) are omitted.
-/

namespace CalKG

/-! ## Data model (knowledge_graph_fuser.py)

Input shapes of `KnowledgeGraphFuser._fuse_graphs`: the main-logic graph
(`main_logic_kg.json`), the per-section sub-logic graphs
(`sub_logic_summary.json`) and the cross-section connection list
(`cross_section_connections.json`). -/

/-- Node of the main-logic graph, with the fields `_fuse_graphs` reads. -/
structure MainNode where
  id : String
  label : String
  summary : String
  difficulty : Nat
  section_num : String
  key_concepts : List String
  learning_objectives : List String
deriving Repr, DecidableEq

/-- Edge of the main-logic graph, with the fields `_fuse_graphs` reads. -/
structure MainEdge where
  source_id : String
  target_id : String
  relationship : String
  description : String
  weight : ℚ
  reasoning : String
deriving Repr, DecidableEq

/-- The main-logic knowledge graph (`nodes`/`edges` of main_logic_kg.json). -/
structure MainKG where
  nodes : List MainNode
  edges : List MainEdge
deriving Repr, DecidableEq

/-- Node of a per-section sub-logic graph. -/
structure SubNode where
  id : String
  label : String
  node_type : String
  summary : String
  difficulty : Nat
  keywords : List String
  formulas : List String
  applications : List String
deriving Repr, DecidableEq

/-- Edge of a per-section sub-logic graph. -/
structure SubEdge where
  source_id : String
  target_id : String
  relationship : String
  description : String
  weight : ℚ
  evidence : String
  bidirectional : Bool
deriving Repr, DecidableEq

/-- One per-section sub-logic graph fragment. -/
structure SubKG where
  section_num : String
  title : String
  nodes : List SubNode
  edges : List SubEdge
deriving Repr, DecidableEq

/-- One verified cross-section connection from the connection analyzer. -/
structure CrossConn where
  has_connection : Bool
  source_id : String
  target_id : String
  connection_type : String
  connection_strength : ℚ
  description : String
  technical_evidence : String
deriving Repr, DecidableEq

/-- Node of the unified graph, as built by `_fuse_graphs` (the carried-along
`properties` dict is omitted: no embedded operation reads it). -/
structure UnifiedNode where
  id : String
  label : String
  node_type : String
  summary : String
  difficulty : Nat
  section_num : String
  keywords : List String
  formulas : List String
  applications : List String
  level : Nat
  source : String
deriving Repr, DecidableEq

/-- Edge of the unified graph, as built by `_fuse_graphs`. -/
structure UnifiedEdge where
  source_id : String
  target_id : String
  relationship : String
  description : String
  weight : ℚ
  evidence : String
  bidirectional : Bool
  edge_type : String
  source : String
deriving Repr, DecidableEq

/-- The `statistics` block computed by `_fuse_graphs` and updated by
`_optimize_unified_kg`. -/
structure KGStats where
  total_nodes : Nat
  total_edges : Nat
  main_logic_nodes : Nat
  basic_concept_nodes : Nat
  core_technology_nodes : Nat
  circuit_application_nodes : Nat
  cross_section_edges : Nat
deriving Repr, DecidableEq

/-- The unified knowledge graph (timestamps and the metadata block omitted). -/
structure UnifiedKG where
  title : String
  nodes : List UnifiedNode
  edges : List UnifiedEdge
  statistics : KGStats
deriving Repr, DecidableEq

/-! ## KnowledgeGraphFuser operations -/

/-- `KnowledgeGraphFuser._get_node_level`: `level` as a function of
`node_type`, defaulting to 1. -/
def get_node_level (node_type : String) : Nat :=
  if node_type = "main_logic" then 0
  else if node_type = "basic_concept" then 1
  else if node_type = "core_technology" then 2
  else if node_type = "circuit_application" then 3
  else 1

/-- Step 1 of `_fuse_graphs`: a main-logic node copied into the unified graph. -/
def main_node_to_unified (n : MainNode) : UnifiedNode :=
  { id := n.id, label := n.label, node_type := "main_logic",
    summary := n.summary, difficulty := n.difficulty,
    section_num := n.section_num, keywords := n.key_concepts,
    formulas := [], applications := n.learning_objectives,
    level := 0, source := "main_logic" }

/-- Step 2 of `_fuse_graphs`: a main-logic edge copied into the unified graph. -/
def main_edge_to_unified (e : MainEdge) : UnifiedEdge :=
  { source_id := e.source_id, target_id := e.target_id,
    relationship := e.relationship, description := e.description,
    weight := e.weight, evidence := e.reasoning, bidirectional := false,
    edge_type := "main_logic", source := "main_logic" }

/-- Step 3 of `_fuse_graphs`: a sub-logic node copied into the unified graph,
tagged with its section number and tier-derived level. -/
def sub_node_to_unified (section_num : String) (n : SubNode) : UnifiedNode :=
  { id := n.id, label := n.label, node_type := n.node_type,
    summary := n.summary, difficulty := n.difficulty,
    section_num := section_num, keywords := n.keywords,
    formulas := n.formulas, applications := n.applications,
    level := get_node_level n.node_type, source := "sub_logic" }

/-- Step 4 of `_fuse_graphs`: an original sub-logic edge copied verbatim. -/
def sub_edge_to_unified (e : SubEdge) : UnifiedEdge :=
  { source_id := e.source_id, target_id := e.target_id,
    relationship := e.relationship, description := e.description,
    weight := e.weight, evidence := e.evidence,
    bidirectional := e.bidirectional,
    edge_type := "intra_section", source := "sub_logic" }

/-- Step 6 of `_fuse_graphs`: a cross-section connection copied as a directed
edge (only reached when `has_connection` is set). -/
def cross_conn_to_edge (c : CrossConn) : UnifiedEdge :=
  { source_id := c.source_id, target_id := c.target_id,
    relationship := c.connection_type, description := c.description,
    weight := c.connection_strength, evidence := c.technical_evidence,
    bidirectional := false, edge_type := "inter_section",
    source := "cross_connection" }

/-- `KnowledgeGraphFuser._has_keyword_similarity`: Jaccard index of the two
keyword sets against a threshold (default 0.2); `False` when either set is
empty. -/
def has_keyword_similarity (n1 n2 : UnifiedNode) (threshold : ℚ := 1/5) : Bool :=
  let keywords1 := n1.keywords.toFinset
  let keywords2 := n2.keywords.toFinset
  if keywords1 = ∅ ∨ keywords2 = ∅ then false
  else
    let inter := keywords1 ∩ keywords2
    let uni := keywords1 ∪ keywords2
    let similarity : ℚ := if uni = ∅ then 0 else (inter.card : ℚ) / (uni.card : ℚ)
    decide (threshold ≤ similarity)

/-- `KnowledgeGraphFuser._has_strong_keyword_similarity` (threshold 0.4). -/
def has_strong_keyword_similarity (n1 n2 : UnifiedNode) : Bool :=
  has_keyword_similarity n1 n2 (2/5)

/-- `KnowledgeGraphFuser._find_main_logic_node_for_section`: exact
section-number match first, then the first node whose section number starts
with the part of the section number before the first dot. -/
def find_main_logic_node_for_section (main_logic_nodes : List UnifiedNode)
    (section_num : String) : Option UnifiedNode :=
  match main_logic_nodes.find? (fun n => n.section_num == section_num) with
  | some n => some n
  | none =>
    let section_stem := (section_num.splitOn ".").headD section_num
    main_logic_nodes.find? (fun n => n.section_num.startsWith section_stem)

/-- The per-section grouping `section_nodes` built in step 3 of
`_fuse_graphs`: the fragment nodes (already converted) split by tier. -/
structure SectionNodes where
  basic_concepts : List UnifiedNode
  core_technologies : List UnifiedNode
  circuit_applications : List UnifiedNode
deriving Repr, DecidableEq

/-- The `section_nodes` grouping of one fragment (step 3 of `_fuse_graphs`):
nodes of the three recognized tiers; nodes of any other type are copied into
the unified graph but belong to no group. -/
def group_section_nodes (kg : SubKG) : SectionNodes :=
  let ns := kg.nodes.map (sub_node_to_unified kg.section_num)
  { basic_concepts := ns.filter (fun n => n.node_type == "basic_concept"),
    core_technologies := ns.filter (fun n => n.node_type == "core_technology"),
    circuit_applications := ns.filter (fun n => n.node_type == "circuit_application") }

/-- The `contains_application` edge synthesized from the section-matching
main-logic node to a circuit-application node of that section. -/
def contains_application_edge (main_node app_node : UnifiedNode)
    (section_num : String) : UnifiedEdge :=
  { source_id := main_node.id, target_id := app_node.id,
    relationship := "contains_application",
    description := "主逻辑章节" ++ section_num ++ "包含电路应用" ++ app_node.label,
    weight := 9/10, evidence := "章节" ++ section_num ++ "的主要应用",
    bidirectional := false, edge_type := "main_to_sub",
    source := "hierarchical_connection" }

/-- `KnowledgeGraphFuser._build_hierarchical_connections`: intra-section
hierarchical edges concept→technology (`enables`), technology→application
(`implements`) and concept→application (`supports`, strong threshold),
in the order the source appends them. -/
def build_hierarchical_connections (sn : SectionNodes) : List UnifiedEdge :=
  (sn.basic_concepts.flatMap fun concept =>
    sn.core_technologies.filterMap fun tech =>
      if has_keyword_similarity concept tech then
        some { source_id := concept.id, target_id := tech.id,
               relationship := "enables",
               description := "基础概念" ++ concept.label ++ "使能核心技术" ++ tech.label,
               weight := 7/10, evidence := "基于关键词相似性的层次连接",
               bidirectional := false, edge_type := "hierarchical",
               source := "hierarchical_connection" }
      else none)
  ++ (sn.core_technologies.flatMap fun tech =>
    sn.circuit_applications.filterMap fun app =>
      if has_keyword_similarity tech app then
        some { source_id := tech.id, target_id := app.id,
               relationship := "implements",
               description := "核心技术" ++ tech.label ++ "实现电路应用" ++ app.label,
               weight := 8/10, evidence := "基于关键词相似性的层次连接",
               bidirectional := false, edge_type := "hierarchical",
               source := "hierarchical_connection" }
      else none)
  ++ (sn.basic_concepts.flatMap fun concept =>
    sn.circuit_applications.filterMap fun app =>
      if has_strong_keyword_similarity concept app then
        some { source_id := concept.id, target_id := app.id,
               relationship := "supports",
               description := "基础概念" ++ concept.label ++ "支撑电路应用" ++ app.label,
               weight := 6/10, evidence := "基于强关键词相似性的直接支撑",
               bidirectional := false, edge_type := "hierarchical",
               source := "hierarchical_connection" }
      else none)

/-- `KnowledgeGraphFuser._build_circuit_application_connections`:
`relates_to_application` edges between circuit-application nodes of different
sections with keyword similarity (the `cross_connections` parameter is taken
by the source function but never used in its body). -/
def build_circuit_application_connections (circuit_applications : List UnifiedNode)
    (cross_connections : List CrossConn) : List UnifiedEdge :=
  circuit_applications.flatMap fun app =>
    circuit_applications.filterMap fun other_app =>
      if app.id ≠ other_app.id ∧ app.section_num ≠ other_app.section_num then
        if has_keyword_similarity app other_app then
          some { source_id := app.id, target_id := other_app.id,
                 relationship := "relates_to_application",
                 description := "电路应用" ++ app.label ++ "与" ++ other_app.label ++ "技术相关",
                 weight := 1/2, evidence := "基于关键词相似性的应用关联",
                 bidirectional := true, edge_type := "application_network",
                 source := "application_connection" }
        else none
      else none

/-- The `statistics` block computed at the end of `_fuse_graphs`. -/
def fuse_stats (nodes : List UnifiedNode) (edges : List UnifiedEdge) : KGStats :=
  { total_nodes := nodes.length,
    total_edges := edges.length,
    main_logic_nodes := (nodes.filter (fun n => n.node_type == "main_logic")).length,
    basic_concept_nodes := (nodes.filter (fun n => n.node_type == "basic_concept")).length,
    core_technology_nodes := (nodes.filter (fun n => n.node_type == "core_technology")).length,
    circuit_application_nodes := (nodes.filter (fun n => n.node_type == "circuit_application")).length,
    cross_section_edges := (edges.filter (fun e => e.edge_type == "inter_section")).length }

/-- `KnowledgeGraphFuser._fuse_graphs`: nodes are the main-logic nodes
followed by all fragment nodes in fragment order; edges are the main-logic
edges, then per fragment the synthesized `contains_application` and
hierarchical edges, then all original fragment edges, then the synthesized
cross-section application edges, then the verified cross-section connections
(the `section_mapping` table the source builds is dead code and not modelled). -/
def fuse_graphs (main_logic_kg : MainKG) (sub_logic_kgs : List SubKG)
    (cross_connections : List CrossConn) : UnifiedKG :=
  let main_logic_nodes := main_logic_kg.nodes.map main_node_to_unified
  let main_edges := main_logic_kg.edges.map main_edge_to_unified
  let sub_nodes := sub_logic_kgs.flatMap
    (fun kg => kg.nodes.map (sub_node_to_unified kg.section_num))
  let circuit_applications := sub_logic_kgs.flatMap
    (fun kg => (group_section_nodes kg).circuit_applications)
  let hier_edges := sub_logic_kgs.flatMap (fun kg =>
    let sn := group_section_nodes kg
    let capp :=
      match find_main_logic_node_for_section main_logic_nodes kg.section_num with
      | some main_node =>
        sn.circuit_applications.map
          (fun app => contains_application_edge main_node app kg.section_num)
      | none => []
    capp ++ build_hierarchical_connections sn)
  let sub_edges := sub_logic_kgs.flatMap (fun kg => kg.edges.map sub_edge_to_unified)
  let app_edges := build_circuit_application_connections circuit_applications cross_connections
  let conn_edges := cross_connections.filterMap
    (fun c => if c.has_connection then some (cross_conn_to_edge c) else none)
  let unified_nodes := main_logic_nodes ++ sub_nodes
  let unified_edges := main_edges ++ hier_edges ++ sub_edges ++ app_edges ++ conn_edges
  { title := "CAL-KG统一知识图谱",
    nodes := unified_nodes,
    edges := unified_edges,
    statistics := fuse_stats unified_nodes unified_edges }

/-- First-occurrence-wins deduplication by a key, accumulating the set of
seen keys, exactly as the `seen`-set loops of `_optimize_unified_kg` do. -/
def dedup_by_key {α κ : Type} [DecidableEq κ] (key : α → κ) :
    List α → List κ → List α
  | [], _ => []
  | x :: xs, seen =>
    if key x ∈ seen then dedup_by_key key xs seen
    else x :: dedup_by_key key xs (key x :: seen)

/-- Deduplication key of an edge: the `(source_id, target_id, relationship)`
tuple. -/
def edge_key (e : UnifiedEdge) : String × String × String :=
  (e.source_id, e.target_id, e.relationship)

/-- `KnowledgeGraphFuser._optimize_unified_kg`: dedup nodes by `id` and edges
by `edge_key` (first occurrence wins), then update the two total counters. -/
def optimize_unified_kg (kg : UnifiedKG) : UnifiedKG :=
  let unique_nodes := dedup_by_key (fun n => n.id) kg.nodes []
  let unique_edges := dedup_by_key edge_key kg.edges []
  { kg with
    nodes := unique_nodes,
    edges := unique_edges,
    statistics := { kg.statistics with
      total_nodes := unique_nodes.length,
      total_edges := unique_edges.length } }

/-! ## Character-level text primitives

Python string operations are codepoint-based, so they are embedded as
structurally recursive functions over `List Char` (a string's `data`); Lean's
own byte-position `String` API is not kernel-reducible, codepoint lists are. -/

/-- Pattern `p` occurs at the head of `s`. -/
def leads : List Char → List Char → Bool
  | [], _ => true
  | _ :: _, [] => false
  | p :: ps, c :: cs => p == c && leads ps cs

/-- Python `pat in s` (substring containment) on codepoint lists. -/
def has_sub : List Char → List Char → Bool
  | [], pat => pat.isEmpty
  | c :: cs, pat => leads pat (c :: cs) || has_sub cs pat

/-- Python `s.split(sep)` for nonempty `sep`: left-to-right, non-overlapping.
The fuel argument (instantiated with the length of `s`) makes the recursion
structural so the kernel can evaluate it. -/
def split_go (sep : List Char) : Nat → List Char → List Char → List (List Char)
  | _, [], acc => [acc.reverse]
  | 0, s, acc => [acc.reverse ++ s]
  | fuel+1, c :: cs, acc =>
    if !sep.isEmpty && leads sep (c :: cs) then
      acc.reverse :: split_go sep fuel ((c :: cs).drop sep.length) []
    else split_go sep fuel cs (c :: acc)

/-- Python `s.split(sep)` on codepoint lists. -/
def split_on_l (sep s : List Char) : List (List Char) :=
  split_go sep s.length s []

/-- Python `s.strip()` on codepoint lists. -/
def trim_l (s : List Char) : List Char :=
  ((s.dropWhile Char.isWhitespace).reverse.dropWhile Char.isWhitespace).reverse

/-- Python `keyword in text.lower()`. -/
def str_contains_lower (text pat : String) : Bool :=
  has_sub (text.data.map Char.toLower) pat.data

/-! ## SubLogicGenerator: rule-based fallback extraction and validation -/

/-- A segmented section as read from document_sections.json (the fields the
sub-logic generator reads; line spans are carried but not read by it). -/
structure DocSection where
  section_num : String
  title : String
  content : String
deriving Repr, DecidableEq

/-- The analysis dictionary shape produced by the extraction prompt and by
`_rule_based_extraction`: the three tier lists plus relationships. -/
structure RuleAnalysis where
  basic_concepts : List SubNode
  core_technologies : List SubNode
  circuit_applications : List SubNode
  relationships : List SubEdge
deriving Repr, DecidableEq

/-- The five keyword categories (`circuit_terms`) of
`SubLogicGenerator._rule_based_extraction`, in dict insertion order. -/
def circuit_terms : List (String × List String) :=
  [("basic_concept", ["定义", "原理", "定律", "公式", "概念", "理论", "基础"]),
   ("core_technology", ["方法", "技术", "算法", "分析", "设计技巧", "实现方法"]),
   ("circuit_application",
    ["电路", "放大器", "滤波器", "振荡器", "比较器", "开关", "变换器", "应用", "实例", "设计"]),
   ("design_method", ["流程", "步骤", "准则", "优化", "设计方法"]),
   ("analysis_tool", ["仿真", "测试", "工具", "软件", "SPICE", "Matlab"])]

/-- The match score of one category: how many of its keywords occur in the
lowercased paragraph. -/
def category_score (para : String) (kws : List String) : Nat :=
  (kws.filter (fun kw => str_contains_lower para kw)).length

/-- The score of a named category (0 for an unknown category name). -/
def score_of (para : String) (category : String) : Nat :=
  match circuit_terms.find? (fun p => p.1 == category) with
  | some p => category_score para p.2
  | none => 0

/-- The node-type classification of one paragraph in
`_rule_based_extraction`: Python `max(type_scores, key=type_scores.get)`
keeps the first key attaining the maximum (strictly greater replaces), and
the type falls back to `basic_concept` when the best score is 0. -/
def classify_paragraph (para : String) : String :=
  let type_scores := circuit_terms.map (fun p => (p.1, category_score para p.2))
  match type_scores with
  | [] => "basic_concept"
  | s :: rest =>
    let best := rest.foldl (fun acc p => if p.2 > acc.2 then p else acc) s
    if best.2 = 0 then "basic_concept" else best.1

/-- Python `[p.strip() for p in content.split('\n\n') if p.strip()]`. -/
def split_paragraphs (content : String) : List String :=
  (((split_on_l "\n\n".data content.data).map
    (fun l => String.mk (trim_l l))).filter (fun p => p ≠ ""))

/-- The label of a rule-extracted node: the first `。`-sentence, truncated to
50 characters with an ellipsis. -/
def first_sentence_label (para : String) : String :=
  let s0 := String.mk (((split_on_l "。".data para.data).headD para.data))
  if s0.length > 50 then String.mk (s0.data.take 50) ++ "..." else s0

/-- The summary of a rule-extracted node: the paragraph truncated to 300
characters with an ellipsis. -/
def trunc_summary (para : String) : String :=
  if para.length > 300 then String.mk (para.data.take 300) ++ "..." else para

/-- The node-building loop of `_rule_based_extraction` over the retained
paragraphs: paragraphs shorter than 50 characters are skipped, the ordinal
`node_id` counts only emitted nodes, keywords/formulas/applications are
always empty (extra carried fields of the Python dict are omitted). -/
def rule_nodes (section_num : String) : List String → Nat → List SubNode
  | [], _ => []
  | para :: rest, node_id =>
    if para.length < 50 then rule_nodes section_num rest node_id
    else
      let node_type := classify_paragraph para
      { id := section_num ++ "_" ++ node_type ++ "_" ++ toString node_id,
        label := first_sentence_label para,
        node_type := node_type,
        summary := trunc_summary para,
        difficulty := 3,
        keywords := [], formulas := [], applications := [] }
        :: rule_nodes section_num rest (node_id + 1)

/-- `SubLogicGenerator._rule_based_extraction`: split into paragraphs, keep
at most the first 10, classify each retained one, and return the three tier
lists (nodes of the two non-tier categories fall into no list) with no
relationships. The `title` argument is taken but unused by the source. -/
def rule_based_extraction (section_num title content : String) : RuleAnalysis :=
  let paragraphs := split_paragraphs content
  let nodes := rule_nodes section_num (paragraphs.take 10) 1
  { basic_concepts := nodes.filter (fun n => n.node_type == "basic_concept"),
    core_technologies := nodes.filter (fun n => n.node_type == "core_technology"),
    circuit_applications := nodes.filter (fun n => n.node_type == "circuit_application"),
    relationships := [] }

/-- `SubLogicGenerator._build_kg_from_analysis` combined with the caller's
attachment of `section_num`/`title`: the three tier lists are concatenated
(each node tagged with its list's tier) and the relationships copied. -/
def build_kg_from_analysis (analysis : RuleAnalysis)
    (section_num title : String) : SubKG :=
  { section_num := section_num, title := title,
    nodes :=
      (analysis.basic_concepts.map (fun c => { c with node_type := "basic_concept" }))
      ++ (analysis.core_technologies.map (fun c => { c with node_type := "core_technology" }))
      ++ (analysis.circuit_applications.map (fun c => { c with node_type := "circuit_application" })),
    edges := analysis.relationships }

/-- `SubLogicGenerator._is_valid_kg`: nonempty node list, at least 2 nodes,
every node with a nonempty id and label. -/
def is_valid_kg (kg : SubKG) : Bool :=
  if kg.nodes.isEmpty then false
  else if kg.nodes.length < 2 then false
  else kg.nodes.all (fun n => !(n.id == "") && !(n.label == ""))

/-- The fragment one section yields when the semantic-extraction service is
entirely unavailable: every service call raises, `_call_deepseek_with_cot_triplet_extraction`
catches the error and falls back to `_rule_based_extraction`, whose result is
always a truthy analysis dict, so `process_single_section` succeeds on its
first attempt and `_build_kg_from_analysis` shapes the fragment. -/
def offline_fragment (s : DocSection) : SubKG :=
  build_kg_from_analysis (rule_based_extraction s.section_num s.title s.content)
    s.section_num s.title

/-- `SubLogicGenerator.generate_sub_logic` under total service
unavailability: `_load_sections_data` filters out sections whose content has
at most 200 characters, every remaining section yields its fallback fragment,
and `_validate_sub_logic_kgs` keeps only fragments passing `_is_valid_kg`. -/
def offline_sub_logic (sections : List DocSection) : List SubKG :=
  let filtered := sections.filter (fun s => 200 < s.content.length)
  (filtered.map offline_fragment).filter (fun kg => is_valid_kg kg)

/-! ## Extraction orchestrator: retry loops and batch collection

`SubLogicGenerator._extract_concurrent` / `ConnectionAnalyzer._analyze_concurrent`
run independent tasks on a thread pool and collect results on the calling
thread; since tasks share no state beyond the accumulators, the batch is
embedded as a fold over the task list in submission order, with each worker's
behaviour per attempt given by a function from the attempt index. -/

/-- Behaviour of one worker attempt: the call raises, returns a falsy result,
or returns a truthy result. -/
inductive WorkerOutcome (α : Type) where
  | raises
  | empty
  | ok (a : α)
deriving Repr, DecidableEq

/-- The retry loop of `SubLogicGenerator.process_single_section`
(`for attempt in range(self.max_retries)`): a truthy analysis returns success
immediately; a falsy analysis or a raised error consumes the attempt and
continues; exhausting the attempts yields failure. Returns the result paired
with the number of attempts made (`start` is the current attempt index,
the second argument the remaining attempts). -/
def process_retry {α : Type} (worker : Nat → WorkerOutcome α) :
    Nat → Nat → Option α × Nat
  | _, 0 => (none, 0)
  | start, rem + 1 =>
    match worker start with
    | .ok a => (some a, 1)
    | _ =>
      let r := process_retry worker (start + 1) rem
      (r.1, r.2 + 1)

/-- A section-extraction task: the section identifier recorded on failure and
the per-attempt worker behaviour (a successful attempt carries the fragment
that `_build_kg_from_analysis` shapes, which is always truthy). -/
structure ExtractTask (α : Type) where
  section_num : String
  worker : Nat → WorkerOutcome α

/-- Result collection for one drained section future: a successful task
appends its fragment to the results, a failed task appends its section number
to the thread-safe failure list. -/
def extract_step {α : Type} (max_retries : Nat) (acc : List α × List String)
    (t : ExtractTask α) : List α × List String :=
  match (process_retry t.worker 0 max_retries).1 with
  | some a => (acc.1 ++ [a], acc.2)
  | none => (acc.1, acc.2 ++ [t.section_num])

/-- `SubLogicGenerator._extract_concurrent` result collection over the whole
batch; no failure ever aborts it. -/
def extract_concurrent {α : Type} (tasks : List (ExtractTask α))
    (max_retries : Nat) : List α × List String :=
  tasks.foldl (extract_step max_retries) ([], [])

/-- A pair-connection analysis result (the fields the orchestrator reads). -/
structure Conn where
  has_connection : Bool
  source_id : String
  target_id : String
deriving Repr, DecidableEq

/-- The retry loop of `ConnectionAnalyzer.analyze_single_pair`: any
non-raising call returns immediately (the connection when truthy with
`has_connection` set, otherwise `None`); only a raised error consumes an
attempt and continues; exhausting the attempts returns `None` — with no
record of the failure. Returns the result paired with the attempts made. -/
def analyze_retry (worker : Nat → WorkerOutcome Conn) :
    Nat → Nat → Option Conn × Nat
  | _, 0 => (none, 0)
  | start, rem + 1 =>
    match worker start with
    | .ok c => (if c.has_connection then some c else none, 1)
    | .empty => (none, 1)
    | .raises =>
      let r := analyze_retry worker (start + 1) rem
      (r.1, r.2 + 1)

/-- A pair-analysis task: the `source-target` identifier that
`_analyze_concurrent` would record on an exception, and the worker. -/
structure PairTask where
  pair_id : String
  worker : Nat → WorkerOutcome Conn

/-- Result collection for one drained pair future: `analyze_single_pair`
catches every exception internally and returns `None` after exhausted
retries, so the `failed_pairs` branch of the collector (only reachable when
the future itself raises) never fires: a `None` result is simply skipped. -/
def analyze_step (max_retries : Nat) (acc : List Conn × List String)
    (t : PairTask) : List Conn × List String :=
  match (analyze_retry t.worker 0 max_retries).1 with
  | some c => (acc.1 ++ [c], acc.2)
  | none => acc

/-- `ConnectionAnalyzer._analyze_concurrent` result collection over the whole
batch. -/
def analyze_concurrent (tasks : List PairTask) (max_retries : Nat) :
    List Conn × List String :=
  tasks.foldl (analyze_step max_retries) ([], [])

/-! ## ConnectionAnalyzer: node-pair generation -/

/-- A circuit-application node as shaped by
`ConnectionAnalyzer._extract_circuit_applications`. -/
structure CircuitApp where
  id : String
  label : String
  summary : String
  keywords : List String
  applications : List String
  section_num : String
  section_title : String
  difficulty : Nat
deriving Repr, DecidableEq

/-- The double loop of `_generate_node_pairs`: every ordered pair `(i, j)`
with `i < j` whose nodes lie in different sections, in loop order. -/
def cross_pairs : List CircuitApp → List (CircuitApp × CircuitApp)
  | [] => []
  | a :: rest =>
    (rest.filterMap fun b =>
      if a.section_num ≠ b.section_num then some (a, b) else none)
    ++ cross_pairs rest

/-- `ConnectionAnalyzer._generate_node_pairs`: all cross-section pairs, then
`random.sample(node_pairs, 1000)` when more than 1000 candidates exist. The
sampler is the only nondeterminism and is passed as a parameter; the claim
theorem assumes of it exactly what `random.sample` guarantees (it returns the
requested number of elements, each drawn from the population). -/
def generate_node_pairs
    (sample : List (CircuitApp × CircuitApp) → Nat → List (CircuitApp × CircuitApp))
    (circuit_apps : List CircuitApp) : List (CircuitApp × CircuitApp) :=
  let node_pairs := cross_pairs circuit_apps
  if node_pairs.length > 1000 then sample node_pairs 1000 else node_pairs

/-! ## DocumentSplitter: section spans from reconciliation match records -/

/-- One reconciliation match between a TOC entry and a content heading
(the shape `_match_toc_with_content` builds and sorts by
`content_line_num`). Content line numbers are 1-based: every content heading
records `line_num + 1` of a 0-based scan. -/
structure SectionMatch where
  toc_section_num : String
  toc_title : String
  content_line_num : Nat
  content_section_num : String
  content_title : String
  confidence : ℚ
deriving Repr, DecidableEq

/-- One output section of `_split_content_by_sections` (`start_line` and
`end_line` as stored: 1-based start, and end equal to the 0-based exclusive
bound of the scanned range). -/
structure SplitSection where
  section_num : String
  title : String
  start_line : Nat
  end_line : Nat
  content : String
deriving Repr, DecidableEq

/-- The content of one span: the stripped non-blank lines with 0-based index
in `[start0, end0)` that exist in the document, joined by newlines. -/
def span_content (lines : List String) (start0 end0 : Nat) : String :=
  String.intercalate "\n"
    ((List.range' start0 (end0 - start0)).filterMap fun idx =>
      match lines.get? idx with
      | some line =>
        let t := String.mk (trim_l line.data)
        if t ≠ "" then some t else none
      | none => none)

/-- `DocumentSplitter._split_content_by_sections` on a match list already
sorted by `content_line_num`: span `i` scans the 0-based half-open range from
`content_line_num i - 1` to `content_line_num (i+1) - 1` (to the document
length for the last span). -/
def split_content_by_sections (lines : List String) :
    List SectionMatch → List SplitSection
  | [] => []
  | m :: rest =>
    let start0 := m.content_line_num - 1
    let end0 :=
      match rest with
      | m2 :: _ => m2.content_line_num - 1
      | [] => lines.length
    { section_num := m.toc_section_num, title := m.toc_title,
      start_line := start0 + 1, end_line := end0,
      content := span_content lines start0 end0 }
      :: split_content_by_sections lines rest

/-- The 0-based half-open scan bounds of each span, in order. -/
def span_bounds (lines : List String) : List SectionMatch → List (Nat × Nat)
  | [] => []
  | m :: rest =>
    (m.content_line_num - 1,
      match rest with
      | m2 :: _ => m2.content_line_num - 1
      | [] => lines.length)
    :: span_bounds lines rest

/-! ## Concrete inputs used by counterexamples and witnesses -/

/-- A unified node with id `a` and no keywords. -/
def c1_node : UnifiedNode :=
  { id := "a", label := "n", node_type := "main_logic", summary := "",
    difficulty := 3, section_num := "1", keywords := [], formulas := [],
    applications := [], level := 0, source := "main_logic" }

/-- A unified edge whose endpoints `x` and `y` match no node id. -/
def c1_edge : UnifiedEdge :=
  { source_id := "x", target_id := "y", relationship := "depends_on",
    description := "", weight := 1/2, evidence := "", bidirectional := false,
    edge_type := "main_logic", source := "main_logic" }

/-- A unified graph holding one node and one dangling edge. -/
def c1_kg : UnifiedKG :=
  { title := "t", nodes := [c1_node], edges := [c1_edge],
    statistics := fuse_stats [c1_node] [c1_edge] }

/-- A basic-concept node with keyword set elements `A`, `B`. -/
def c7_node1 : UnifiedNode :=
  { id := "bc1", label := "concept", node_type := "basic_concept", summary := "",
    difficulty := 2, section_num := "1.1", keywords := ["A", "B"], formulas := [],
    applications := [], level := 1, source := "sub_logic" }

/-- A core-technology node with keyword set elements `B`, `C`. -/
def c7_node2 : UnifiedNode :=
  { id := "ct1", label := "tech", node_type := "core_technology", summary := "",
    difficulty := 3, section_num := "1.1", keywords := ["B", "C"], formulas := [],
    applications := [], level := 2, source := "sub_logic" }

/-- A section grouping holding exactly the two nodes above. -/
def c7_section : SectionNodes :=
  { basic_concepts := [c7_node1], core_technologies := [c7_node2],
    circuit_applications := [] }

/-- A 50-character paragraph containing exactly one core-technology keyword
(`方法`) and one circuit-application keyword (`电路`): the two categories tie. -/
def c8_content : String := String.mk ("方法电路".data ++ List.replicate 46 'x')

/-- A section whose 222-character content is a single keyword-free paragraph:
its fallback fragment has exactly one node. -/
def c2_section : DocSection :=
  { section_num := "3.1", title := "运放",
    content := String.mk ("电阻".data ++ List.replicate 220 'x') }

/-- A section with two long paragraphs: its fallback fragment has two nodes
and passes validation. -/
def c2_good : DocSection :=
  { section_num := "4.2", title := "滤波",
    content := String.mk (List.replicate 120 'x' ++ "\n\n".data ++ List.replicate 120 'y') }

/-- A basic-concept node with an empty keyword list (as every
fallback-extracted node has). -/
def c10_node : UnifiedNode :=
  { id := "z", label := "fallback", node_type := "basic_concept", summary := "",
    difficulty := 3, section_num := "1.1", keywords := [], formulas := [],
    applications := [], level := 1, source := "sub_logic" }

/-- A section grouping pairing the keyword-free node with a keyword-bearing
technology node. -/
def c10_section : SectionNodes :=
  { basic_concepts := [c10_node], core_technologies := [c7_node2],
    circuit_applications := [] }

/-- A pair worker that raises on every attempt. -/
def c3_raising_worker : Nat → WorkerOutcome Conn := fun _ => .raises

/-- The connection reported by the succeeding pair worker. -/
def c3_conn : Conn := { has_connection := true, source_id := "p", target_id := "q" }

/-- An always-raising pair-analysis task. -/
def c3_pair_fail : PairTask := { pair_id := "a-b", worker := c3_raising_worker }

/-- A pair-analysis task succeeding on its first attempt. -/
def c3_pair_ok : PairTask := { pair_id := "p-q", worker := fun _ => .ok c3_conn }

/-- A two-task pair batch: the always-raising task, then the succeeding one. -/
def c3_pair_batch : List PairTask := [c3_pair_fail, c3_pair_ok]

/-- An always-failing section-extraction task. -/
def c3_sec_fail : ExtractTask Nat :=
  { section_num := "2.1", worker := fun _ => .raises }

/-- A section-extraction task succeeding on its first attempt. -/
def c3_sec_ok : ExtractTask Nat :=
  { section_num := "2.2", worker := fun _ => .ok 7 }

/-- A circuit-application node in section 1. -/
def c9_app1 : CircuitApp :=
  { id := "ca1", label := "amp", summary := "", keywords := [],
    applications := [], section_num := "1", section_title := "", difficulty := 3 }

/-- A circuit-application node in section 2. -/
def c9_app2 : CircuitApp :=
  { id := "ca2", label := "filter", summary := "", keywords := [],
    applications := [], section_num := "2", section_title := "", difficulty := 3 }

/-- A two-node application list spanning two sections. -/
def c9_apps : List CircuitApp := [c9_app1, c9_app2]

/-- A concrete four-line document body. -/
def c4_lines : List String :=
  ["# 1 Intro", "intro text", "# 2 Amplifiers", "amp text"]

/-- A reconciliation match at content line 1. -/
def c4_match1 : SectionMatch :=
  { toc_section_num := "1", toc_title := "Intro", content_line_num := 1,
    content_section_num := "1", content_title := "Intro", confidence := 1 }

/-- A reconciliation match at content line 3. -/
def c4_match2 : SectionMatch :=
  { toc_section_num := "2", toc_title := "Amplifiers", content_line_num := 3,
    content_section_num := "2", content_title := "Amplifiers", confidence := 1 }

/-- The sorted two-element match list. -/
def c4_matches : List SectionMatch := [c4_match1, c4_match2]

/-! ## Helper lemmas about first-occurrence-wins dedup -/

theorem dedup_by_key_sublist {α κ : Type} [DecidableEq κ] (key : α → κ)
    (l : List α) : ∀ (seen : List κ), (dedup_by_key key l seen).Sublist l := by
  induction l with
  | nil => intro seen; simp [dedup_by_key]
  | cons x xs ih =>
    intro seen
    by_cases h : key x ∈ seen
    · simp only [dedup_by_key, if_pos h]
      exact (ih seen).cons x
    · simp only [dedup_by_key, if_neg h]
      exact (ih _).cons₂ x

theorem dedup_by_key_nodup {α κ : Type} [DecidableEq κ] (key : α → κ)
    (l : List α) : ∀ (seen : List κ),
    ((dedup_by_key key l seen).map key).Nodup ∧
    ∀ k ∈ (dedup_by_key key l seen).map key, k ∉ seen := by
  induction l with
  | nil => intro seen; simp [dedup_by_key]
  | cons x xs ih =>
    intro seen
    by_cases h : key x ∈ seen
    · simp only [dedup_by_key, if_pos h]
      exact ih seen
    · simp only [dedup_by_key, if_neg h, List.map_cons, List.nodup_cons]
      obtain ⟨hn, hs⟩ := ih (key x :: seen)
      refine ⟨⟨fun hmem => (hs _ hmem) (List.mem_cons_self _ _), hn⟩, ?_⟩
      intro k hk
      rcases List.mem_cons.mp hk with rfl | hk2
      · exact h
      · exact fun hkseen => (hs k hk2) (List.mem_cons_of_mem _ hkseen)

theorem dedup_by_key_idem {α κ : Type} [DecidableEq κ] (key : α → κ)
    (l : List α) : ∀ (seen : List κ),
    dedup_by_key key (dedup_by_key key l seen) seen = dedup_by_key key l seen := by
  induction l with
  | nil => intro seen; simp [dedup_by_key]
  | cons x xs ih =>
    intro seen
    by_cases h : key x ∈ seen
    · simp only [dedup_by_key, if_pos h]
      exact ih seen
    · simp only [dedup_by_key, if_neg h]
      rw [ih (key x :: seen)]

/-! ## Claim theorems: fusion engine -/

/-- Claim C1, counterexample: after `_optimize_unified_kg`, a surviving edge
may reference endpoints that exist among no surviving node — the optimize
step never checks edge endpoints, so the dangling edge of `c1_kg` survives,
refuting the claim that such edges are dropped. -/
theorem optimize_keeps_dangling_edges :
    ¬ ∀ e ∈ (optimize_unified_kg c1_kg).edges,
        (∃ n ∈ (optimize_unified_kg c1_kg).nodes, n.id = e.source_id) ∧
        (∃ n ∈ (optimize_unified_kg c1_kg).nodes, n.id = e.target_id) := by
  decide

/-- Claim C1, amended: after fusion's final dedup/optimize step, node ids are
unique and edge `(source_id, target_id, relationship)` keys are unique, and
the surviving nodes and edges are a subsequence of the input ones — but edges
are never filtered against the surviving nodes, so an edge whose endpoint
does not exist post-fusion is kept, not dropped. -/
theorem optimize_unique_ids_and_keys (kg : UnifiedKG) :
    ((optimize_unified_kg kg).nodes.map (fun n => n.id)).Nodup ∧
    ((optimize_unified_kg kg).edges.map edge_key).Nodup ∧
    ((optimize_unified_kg kg).nodes).Sublist kg.nodes ∧
    ((optimize_unified_kg kg).edges).Sublist kg.edges := by
  refine ⟨(dedup_by_key_nodup _ kg.nodes []).1,
    (dedup_by_key_nodup edge_key kg.edges []).1,
    dedup_by_key_sublist _ kg.nodes [],
    dedup_by_key_sublist edge_key kg.edges []⟩

/-- Claim C5: fusing a main-logic graph with no section fragments and no
connections yields a unified graph whose node and edge counts equal the
main-logic input's counts exactly — no nodes or edges are synthesized. -/
theorem fuse_no_fragments_counts (main_logic_kg : MainKG) :
    (fuse_graphs main_logic_kg [] []).nodes.length = main_logic_kg.nodes.length ∧
    (fuse_graphs main_logic_kg [] []).edges.length = main_logic_kg.edges.length := by
  simp [fuse_graphs, build_circuit_application_connections]

/-- Claim C6: the dedup step of `_optimize_unified_kg` (nodes by id, edges by
`(source_id, target_id, relationship)`, first occurrence winning) is
idempotent — running it twice equals running it once. -/
theorem optimize_idempotent (kg : UnifiedKG) :
    optimize_unified_kg (optimize_unified_kg kg) = optimize_unified_kg kg := by
  cases kg with
  | mk title nodes edges stats =>
    cases stats
    simp [optimize_unified_kg, dedup_by_key_idem]

/-- Jaccard characterization of `_has_keyword_similarity` on nonempty
keyword lists. -/
theorem has_keyword_similarity_iff (n1 n2 : UnifiedNode) (threshold : ℚ)
    (h1 : n1.keywords ≠ []) (h2 : n2.keywords ≠ []) :
    has_keyword_similarity n1 n2 threshold = true ↔
      threshold ≤ ((n1.keywords.toFinset ∩ n2.keywords.toFinset).card : ℚ) /
        ((n1.keywords.toFinset ∪ n2.keywords.toFinset).card : ℚ) := by
  have hk1 : n1.keywords.toFinset ≠ ∅ := by
    simpa [List.toFinset_eq_empty_iff] using h1
  have hk2 : n2.keywords.toFinset ≠ ∅ := by
    simpa [List.toFinset_eq_empty_iff] using h2
  have huni : n1.keywords.toFinset ∪ n2.keywords.toFinset ≠ ∅ := by
    simp [Finset.union_eq_empty, hk1]
  simp only [has_keyword_similarity]
  rw [if_neg (by simp [hk1, hk2]), if_neg huni]
  simp [decide_eq_true_eq]

/-- Claim C7: for keyword sets with elements `A`, `B` and `B`, `C` (Jaccard
1/3) the similarity check passes at threshold 0.2 and fails at 0.4, a
hierarchical `enables` edge is synthesized at the default threshold, and in
general (for nonempty keyword lists) the check holds exactly when
intersection-over-union reaches the threshold. -/
theorem keyword_similarity_thresholds :
    has_keyword_similarity c7_node1 c7_node2 (1/5) = true ∧
    has_keyword_similarity c7_node1 c7_node2 (2/5) = false ∧
    ((build_hierarchical_connections c7_section).map (fun e => e.relationship))
      = ["enables"] ∧
    (∀ (n1 n2 : UnifiedNode) (threshold : ℚ),
      n1.keywords ≠ [] → n2.keywords ≠ [] →
      (has_keyword_similarity n1 n2 threshold = true ↔
        threshold ≤ ((n1.keywords.toFinset ∩ n2.keywords.toFinset).card : ℚ) /
          ((n1.keywords.toFinset ∪ n2.keywords.toFinset).card : ℚ))) := by
  have hi : (c7_node1.keywords.toFinset ∩ c7_node2.keywords.toFinset).card = 1 := by
    decide
  have hu : (c7_node1.keywords.toFinset ∪ c7_node2.keywords.toFinset).card = 3 := by
    decide
  have e1 : has_keyword_similarity c7_node1 c7_node2 (1/5) = true := by
    rw [has_keyword_similarity_iff _ _ _ (by simp [c7_node1]) (by simp [c7_node2]),
      hi, hu]
    norm_num
  have e2 : has_keyword_similarity c7_node1 c7_node2 (2/5) = false := by
    rw [Bool.eq_false_iff]
    intro hT
    have := (has_keyword_similarity_iff c7_node1 c7_node2 (2/5)
      (by simp [c7_node1]) (by simp [c7_node2])).mp hT
    rw [hi, hu] at this
    norm_num at this
  refine ⟨e1, e2, ?_, fun n1 n2 threshold h1 h2 =>
    has_keyword_similarity_iff n1 n2 threshold h1 h2⟩
  have e1i : has_keyword_similarity c7_node1 c7_node2 (5⁻¹) = true := by
    rwa [one_div] at e1
  simp [build_hierarchical_connections, c7_section, e1i]

/-- Claim C7, witness: the general Jaccard characterization applied to the
concrete node pair at threshold 3/10, with both nonemptiness hypotheses
discharged on concrete keyword lists. -/
theorem keyword_similarity_thresholds_witness :
    has_keyword_similarity c7_node1 c7_node2 (3/10) = true ↔
      (3/10 : ℚ) ≤ ((c7_node1.keywords.toFinset ∩ c7_node2.keywords.toFinset).card : ℚ) /
        ((c7_node1.keywords.toFinset ∪ c7_node2.keywords.toFinset).card : ℚ) :=
  keyword_similarity_thresholds.2.2.2 c7_node1 c7_node2 (3/10)
    (by decide) (by decide)

/-! ## Claim theorems: fallback extraction and validation -/

/-- Nodes built by the fallback loop always carry an empty keyword list. -/
theorem rule_nodes_keywords (section_num : String) :
    ∀ (paras : List String) (k : Nat) (n : SubNode),
      n ∈ rule_nodes section_num paras k → n.keywords = [] := by
  intro paras
  induction paras with
  | nil => intro k n hn; simp [rule_nodes] at hn
  | cons p rest ih =>
    intro k n hn
    by_cases h : p.length < 50
    · rw [rule_nodes, if_pos h] at hn
      exact ih k n hn
    · rw [rule_nodes, if_neg h] at hn
      rcases List.mem_cons.mp hn with rfl | hn2
      · rfl
      · exact ih (k + 1) n hn2

set_option maxRecDepth 8000 in
/-- Claim C2, counterexample: a segmented section can contribute no fragment
to the output even though the rule-based fallback ran — `c2_section` passes
the 200-character content filter and its fallback fragment has one node, but
`_is_valid_kg` drops fragments with fewer than 2 nodes, so the run's output
is empty. -/
theorem offline_section_contributes_nothing :
    200 < c2_section.content.length ∧
    (offline_fragment c2_section).nodes.length = 1 ∧
    offline_sub_logic [c2_section] = [] := by
  decide

/-- Claim C2, amended: under total service unavailability every section kept
by the 200-character content filter yields a fallback fragment, and that
fragment reaches the output iff it passes `_is_valid_kg`; consequently every
fragment in the output has at least 2 nodes, each with a nonempty id and
label — but a section whose fallback fragment fails validation (or whose
content is at most 200 characters) contributes nothing. -/
theorem offline_sub_logic_valid (sections : List DocSection) :
    (∀ kg ∈ offline_sub_logic sections,
      2 ≤ kg.nodes.length ∧ ∀ n ∈ kg.nodes, n.id ≠ "" ∧ n.label ≠ "") ∧
    (∀ s ∈ sections, 200 < s.content.length →
      is_valid_kg (offline_fragment s) = true →
      offline_fragment s ∈ offline_sub_logic sections) := by
  constructor
  · intro kg hkg
    simp only [offline_sub_logic, List.mem_filter] at hkg
    obtain ⟨-, hv⟩ := hkg
    unfold is_valid_kg at hv
    split at hv
    · exact absurd hv (by simp)
    · split at hv
      · exact absurd hv (by simp)
      · rename_i hlt
        refine ⟨by omega, ?_⟩
        intro n hn
        have := List.all_eq_true.mp hv n hn
        constructor
        · intro hid
          simp [hid] at this
        · intro hlabel
          simp [hlabel] at this
  · intro s hs hlen hvalid
    simp only [offline_sub_logic, List.mem_filter, List.mem_map]
    exact ⟨⟨s, ⟨hs, decide_eq_true hlen⟩, rfl⟩, hvalid⟩

set_option maxRecDepth 8000 in
/-- Claim C2 amended, witness: the section `c2_good` (two long paragraphs,
content above 200 characters, fallback fragment with 2 nodes) reaches the
output of a run with the service entirely unavailable. -/
theorem offline_sub_logic_valid_witness :
    offline_fragment c2_good ∈ offline_sub_logic [c2_good] :=
  (offline_sub_logic_valid [c2_good]).2 c2_good (by decide) (by decide) (by decide)

set_option maxRecDepth 4000 in
/-- Claim C8, counterexample: for a retained paragraph whose
core-technology and circuit-application scores tie at 1 (basic-concept score
0), the fallback classifies it as `core_technology` — not `basic_concept` as
the claim's tie rule states. -/
theorem rule_extraction_tie_not_basic :
    score_of c8_content "basic_concept" = 0 ∧
    score_of c8_content "core_technology" = 1 ∧
    score_of c8_content "circuit_application" = 1 ∧
    (rule_based_extraction "8" "t" c8_content).basic_concepts = [] ∧
    ((rule_based_extraction "8" "t" c8_content).core_technologies.map
      (fun n => n.id)) = ["8_core_technology_1"] := by
  decide

/-- Claim C8, amended: each retained paragraph is classified over five
categories (the three tiers plus `design_method` and `analysis_tool`) by
keyword-count scores; the winner is the first category in the fixed order
whose score is maximal (so `basic_concept` wins any tie it participates in,
and is also the default when no keyword occurs, but a tie among later
categories goes to the earliest of them, not to `basic_concept`); the
produced fragment contains no relationships, its three tier lists hold
exactly the nodes classified into that tier, and nodes classified into the
two non-tier categories appear in none of them. -/
theorem rule_extraction_classification :
    (∀ para : String,
      (classify_paragraph para = "basic_concept" ↔
        score_of para "core_technology" ≤ score_of para "basic_concept" ∧
        score_of para "circuit_application" ≤ score_of para "basic_concept" ∧
        score_of para "design_method" ≤ score_of para "basic_concept" ∧
        score_of para "analysis_tool" ≤ score_of para "basic_concept") ∧
      (classify_paragraph para = "core_technology" ↔
        score_of para "basic_concept" < score_of para "core_technology" ∧
        score_of para "circuit_application" ≤ score_of para "core_technology" ∧
        score_of para "design_method" ≤ score_of para "core_technology" ∧
        score_of para "analysis_tool" ≤ score_of para "core_technology") ∧
      (classify_paragraph para = "circuit_application" ↔
        score_of para "basic_concept" < score_of para "circuit_application" ∧
        score_of para "core_technology" < score_of para "circuit_application" ∧
        score_of para "design_method" ≤ score_of para "circuit_application" ∧
        score_of para "analysis_tool" ≤ score_of para "circuit_application") ∧
      (classify_paragraph para = "design_method" ↔
        score_of para "basic_concept" < score_of para "design_method" ∧
        score_of para "core_technology" < score_of para "design_method" ∧
        score_of para "circuit_application" < score_of para "design_method" ∧
        score_of para "analysis_tool" ≤ score_of para "design_method") ∧
      (classify_paragraph para = "analysis_tool" ↔
        score_of para "basic_concept" < score_of para "analysis_tool" ∧
        score_of para "core_technology" < score_of para "analysis_tool" ∧
        score_of para "circuit_application" < score_of para "analysis_tool" ∧
        score_of para "design_method" < score_of para "analysis_tool")) ∧
    (∀ section_num title content,
      (rule_based_extraction section_num title content).relationships = [] ∧
      (∀ n ∈ (rule_based_extraction section_num title content).basic_concepts,
        n.node_type = "basic_concept") ∧
      (∀ n ∈ (rule_based_extraction section_num title content).core_technologies,
        n.node_type = "core_technology") ∧
      (∀ n ∈ (rule_based_extraction section_num title content).circuit_applications,
        n.node_type = "circuit_application")) := by
  constructor
  · intro para
    simp only [classify_paragraph, circuit_terms, score_of, List.map_cons,
      List.map_nil, List.foldl_cons, List.foldl_nil, List.find?]
    norm_num
    split_ifs <;> simp_all <;> omega
  · intro section_num title content
    refine ⟨rfl, ?_, ?_, ?_⟩ <;>
    · intro n hn
      simp only [rule_based_extraction, List.mem_filter, beq_iff_eq] at hn
      exact hn.2

/-! ## Claim theorem: empty keyword sets receive no synthesized edges -/

/-- Claim C10: the similarity check is `false` at every threshold whenever
either keyword list is empty (the division is guarded), every
fallback-extracted node has an empty keyword list, and a node id carried only
by empty-keyword nodes is never an endpoint of a synthesized hierarchical or
cross-application edge. -/
theorem empty_keywords_no_synth :
    (∀ (n1 n2 : UnifiedNode) (threshold : ℚ),
      n1.keywords = [] ∨ n2.keywords = [] →
      has_keyword_similarity n1 n2 threshold = false) ∧
    (∀ section_num title content,
      ∀ n ∈ (rule_based_extraction section_num title content).basic_concepts ++
        (rule_based_extraction section_num title content).core_technologies ++
        (rule_based_extraction section_num title content).circuit_applications,
        n.keywords = []) ∧
    (∀ (sn : SectionNodes) (x : String),
      (∀ n ∈ sn.basic_concepts ++ sn.core_technologies ++ sn.circuit_applications,
        n.id = x → n.keywords = []) →
      ∀ e ∈ build_hierarchical_connections sn,
        e.source_id ≠ x ∧ e.target_id ≠ x) ∧
    (∀ (apps : List UnifiedNode) (conns : List CrossConn) (x : String),
      (∀ n ∈ apps, n.id = x → n.keywords = []) →
      ∀ e ∈ build_circuit_application_connections apps conns,
        e.source_id ≠ x ∧ e.target_id ≠ x) := by
  have hfalse : ∀ (n1 n2 : UnifiedNode) (threshold : ℚ),
      n1.keywords = [] ∨ n2.keywords = [] →
      has_keyword_similarity n1 n2 threshold = false := by
    intro n1 n2 threshold h
    rcases h with h | h <;> simp [has_keyword_similarity, h]
  have hsim : ∀ (a b : UnifiedNode) (threshold : ℚ),
      has_keyword_similarity a b threshold = true →
      a.keywords ≠ [] ∧ b.keywords ≠ [] := by
    intro a b threshold ht
    constructor
    · intro h
      rw [hfalse a b threshold (Or.inl h)] at ht
      exact Bool.false_ne_true ht
    · intro h
      rw [hfalse a b threshold (Or.inr h)] at ht
      exact Bool.false_ne_true ht
  refine ⟨hfalse, ?_, ?_, ?_⟩
  · intro section_num title content n hn
    simp only [rule_based_extraction, List.mem_append, List.mem_filter] at hn
    have hmem : n ∈ rule_nodes section_num ((split_paragraphs content).take 10) 1 := by
      rcases hn with (h | h) | h <;> exact h.1
    exact rule_nodes_keywords section_num _ 1 n hmem
  · intro sn x hx e he
    simp only [build_hierarchical_connections, List.mem_append,
      List.mem_flatMap, List.mem_filterMap] at he
    rcases he with (⟨a, ha, b, hb, hsome⟩ | ⟨a, ha, b, hb, hsome⟩) | ⟨a, ha, b, hb, hsome⟩
    · by_cases hkw : has_keyword_similarity a b = true
      · rw [if_pos hkw] at hsome
        obtain ⟨hak, hbk⟩ := hsim a b _ hkw
        rw [Option.some.injEq] at hsome
        subst hsome
        exact ⟨fun hax => hak (hx a (by simp [ha]) hax),
          fun hbx => hbk (hx b (by simp [hb]) hbx)⟩
      · rw [if_neg hkw] at hsome
        simp at hsome
    · by_cases hkw : has_keyword_similarity a b = true
      · rw [if_pos hkw] at hsome
        obtain ⟨hak, hbk⟩ := hsim a b _ hkw
        rw [Option.some.injEq] at hsome
        subst hsome
        exact ⟨fun hax => hak (hx a (by simp [ha]) hax),
          fun hbx => hbk (hx b (by simp [hb]) hbx)⟩
      · rw [if_neg hkw] at hsome
        simp at hsome
    · by_cases hkw : has_strong_keyword_similarity a b = true
      · rw [if_pos hkw] at hsome
        obtain ⟨hak, hbk⟩ := hsim a b (2/5)
          (by simpa [has_strong_keyword_similarity] using hkw)
        rw [Option.some.injEq] at hsome
        subst hsome
        exact ⟨fun hax => hak (hx a (by simp [ha]) hax),
          fun hbx => hbk (hx b (by simp [hb]) hbx)⟩
      · rw [if_neg hkw] at hsome
        simp at hsome
  · intro apps conns x hx e he
    simp only [build_circuit_application_connections, List.mem_flatMap,
      List.mem_filterMap] at he
    obtain ⟨a, ha, b, hb, hsome⟩ := he
    by_cases hids : a.id ≠ b.id ∧ a.section_num ≠ b.section_num
    · rw [if_pos hids] at hsome
      by_cases hkw : has_keyword_similarity a b = true
      · rw [if_pos hkw] at hsome
        obtain ⟨hak, hbk⟩ := hsim a b _ hkw
        rw [Option.some.injEq] at hsome
        subst hsome
        constructor
        · intro hax
          exact hak (hx a ha hax)
        · intro hbx
          exact hbk (hx b hb hbx)
      · rw [if_neg (by simpa using hkw)] at hsome
        simp at hsome
    · rw [if_neg hids] at hsome
      simp at hsome

/-- Claim C10, witness: in a section pairing the keyword-free node `z` with a
keyword-bearing technology node, no synthesized hierarchical edge touches
`z`, and no cross-application edge among `[c10_node]` touches it either. -/
theorem empty_keywords_no_synth_witness :
    (∀ e ∈ build_hierarchical_connections c10_section,
      e.source_id ≠ "z" ∧ e.target_id ≠ "z") ∧
    (∀ e ∈ build_circuit_application_connections [c10_node] [],
      e.source_id ≠ "z" ∧ e.target_id ≠ "z") :=
  ⟨empty_keywords_no_synth.2.2.1 c10_section "z" (by decide),
   empty_keywords_no_synth.2.2.2 [c10_node] [] "z" (by decide)⟩

/-! ## Claim theorems: orchestrator retry and failure recording -/

/-- An always-raising section worker consumes exactly the remaining attempts
and yields failure. -/
theorem process_retry_raises {α : Type} (w : Nat → WorkerOutcome α)
    (hw : ∀ i, w i = .raises) :
    ∀ (start m : Nat), process_retry w start m = (none, m) := by
  intro start m
  induction m generalizing start with
  | zero => rfl
  | succ k ih =>
    simp only [process_retry, hw start]
    simp [ih (start + 1)]

/-- An always-raising pair worker consumes exactly the remaining attempts and
yields `None`. -/
theorem analyze_retry_raises (w : Nat → WorkerOutcome Conn)
    (hw : ∀ i, w i = .raises) :
    ∀ (start m : Nat), analyze_retry w start m = (none, m) := by
  intro start m
  induction m generalizing start with
  | zero => rfl
  | succ k ih =>
    simp only [analyze_retry, hw start]
    simp [ih (start + 1)]

/-- The section-batch fold starting from any accumulator prepends it to the
results and failures of the batch from empty accumulators. -/
theorem extract_concurrent_acc {α : Type} (max_retries : Nat) :
    ∀ (tasks : List (ExtractTask α)) (acc : List α × List String),
      tasks.foldl (extract_step max_retries) acc =
      (acc.1 ++ (extract_concurrent tasks max_retries).1,
       acc.2 ++ (extract_concurrent tasks max_retries).2) := by
  intro tasks
  induction tasks with
  | nil => intro acc; simp [extract_concurrent]
  | cons t ts ih =>
    intro acc
    rw [List.foldl_cons, ih]
    conv_rhs => rw [extract_concurrent, List.foldl_cons]
    rw [ih]
    cases hr : (process_retry t.worker 0 max_retries).1 <;>
      simp [extract_step, hr]

/-- Batch decomposition for section extraction: results and failures of a
concatenation are the concatenations. -/
theorem extract_concurrent_append {α : Type} (max_retries : Nat)
    (a b : List (ExtractTask α)) :
    extract_concurrent (a ++ b) max_retries =
      ((extract_concurrent a max_retries).1 ++ (extract_concurrent b max_retries).1,
       (extract_concurrent a max_retries).2 ++ (extract_concurrent b max_retries).2) := by
  rw [extract_concurrent, List.foldl_append, extract_concurrent_acc max_retries b]
  rfl

/-- The pair-batch fold starting from any accumulator prepends it to the
batch run from empty accumulators. -/
theorem analyze_concurrent_acc (max_retries : Nat) :
    ∀ (tasks : List PairTask) (acc : List Conn × List String),
      tasks.foldl (analyze_step max_retries) acc =
      (acc.1 ++ (analyze_concurrent tasks max_retries).1,
       acc.2 ++ (analyze_concurrent tasks max_retries).2) := by
  intro tasks
  induction tasks with
  | nil => intro acc; simp [analyze_concurrent]
  | cons t ts ih =>
    intro acc
    rw [List.foldl_cons, ih]
    conv_rhs => rw [analyze_concurrent, List.foldl_cons]
    rw [ih]
    cases hr : (analyze_retry t.worker 0 max_retries).1 <;>
      simp [analyze_step, hr]

/-- Batch decomposition for pair analysis. -/
theorem analyze_concurrent_append (max_retries : Nat) (a b : List PairTask) :
    analyze_concurrent (a ++ b) max_retries =
      ((analyze_concurrent a max_retries).1 ++ (analyze_concurrent b max_retries).1,
       (analyze_concurrent a max_retries).2 ++ (analyze_concurrent b max_retries).2) := by
  rw [analyze_concurrent, List.foldl_append, analyze_concurrent_acc max_retries b]
  rfl

set_option maxRecDepth 2000 in
/-- Claim C3, counterexample: in the pair-analysis batch `c3_pair_batch`, the
task whose worker raises on every attempt is attempted exactly 3
(`max_retries`) times, then yields `None` — and is recorded in the failure
list zero times, not once; the other task still yields its connection. -/
theorem failed_pair_not_recorded :
    (analyze_retry c3_raising_worker 0 3).2 = 3 ∧
    (analyze_retry c3_raising_worker 0 3).1 = none ∧
    analyze_concurrent c3_pair_batch 3 = ([c3_conn], []) := by
  decide

/-- Claim C3, amended: a task whose worker raises on every attempt is
attempted exactly `max_retries` times in both orchestrator workloads, and
every other task of the batch still yields its result; in section extraction
the failed task's section number is recorded in the failure list exactly once
(when no other failure shares its identifier), but in pair analysis the
failed task yields `None` and the batch output is as if the task were absent:
it is never recorded in the failure list. -/
theorem retry_failure_semantics :
    (∀ (α : Type) (w : Nat → WorkerOutcome α), (∀ i, w i = .raises) →
      ∀ start max_retries, process_retry w start max_retries = (none, max_retries)) ∧
    (∀ (w : Nat → WorkerOutcome Conn), (∀ i, w i = .raises) →
      ∀ start max_retries, analyze_retry w start max_retries = (none, max_retries)) ∧
    (∀ (α : Type) (ts1 ts2 : List (ExtractTask α)) (t : ExtractTask α)
        (max_retries : Nat), (∀ i, t.worker i = .raises) →
      (extract_concurrent (ts1 ++ t :: ts2) max_retries).1 =
        (extract_concurrent (ts1 ++ ts2) max_retries).1 ∧
      (extract_concurrent (ts1 ++ t :: ts2) max_retries).2 =
        (extract_concurrent ts1 max_retries).2 ++ t.section_num ::
          (extract_concurrent ts2 max_retries).2 ∧
      (t.section_num ∉ (extract_concurrent ts1 max_retries).2 →
        t.section_num ∉ (extract_concurrent ts2 max_retries).2 →
        (extract_concurrent (ts1 ++ t :: ts2) max_retries).2.count t.section_num = 1)) ∧
    (∀ (ts1 ts2 : List PairTask) (t : PairTask) (max_retries : Nat),
      (∀ i, t.worker i = .raises) →
      analyze_concurrent (ts1 ++ t :: ts2) max_retries =
        analyze_concurrent (ts1 ++ ts2) max_retries) := by
  refine ⟨fun α w hw => process_retry_raises w hw,
    fun w hw => analyze_retry_raises w hw, ?_, ?_⟩
  · intro α ts1 ts2 t max_retries hw
    have hsingle : extract_concurrent [t] max_retries = ([], [t.section_num]) := by
      simp [extract_concurrent, extract_step, process_retry_raises t.worker hw]
    have hsplit : ts1 ++ t :: ts2 = (ts1 ++ [t]) ++ ts2 := by simp
    rw [hsplit, extract_concurrent_append, extract_concurrent_append,
      extract_concurrent_append, hsingle]
    refine ⟨by simp, by simp, ?_⟩
    intro h1 h2
    simp [List.count_append, List.count_eq_zero.mpr h1, List.count_eq_zero.mpr h2]
  · intro ts1 ts2 t max_retries hw
    have hsingle : analyze_concurrent [t] max_retries = ([], []) := by
      simp [analyze_concurrent, analyze_step, analyze_retry_raises t.worker hw]
    have hsplit : ts1 ++ t :: ts2 = (ts1 ++ [t]) ++ ts2 := by simp
    rw [hsplit, analyze_concurrent_append, analyze_concurrent_append,
      analyze_concurrent_append, hsingle]
    simp

/-- Claim C3 amended, witness: the amended semantics applied to concrete
batches — the always-failing section task is recorded once between the
surrounding results, and the always-failing pair task leaves the pair batch
output unchanged. -/
theorem retry_failure_semantics_witness :
    process_retry (fun _ => (WorkerOutcome.raises : WorkerOutcome Nat)) 0 3 = (none, 3) ∧
    (extract_concurrent ([] ++ c3_sec_fail :: [c3_sec_ok]) 3).2 =
      (extract_concurrent ([] : List (ExtractTask Nat)) 3).2 ++ "2.1" ::
        (extract_concurrent [c3_sec_ok] 3).2 ∧
    analyze_concurrent ([] ++ c3_pair_fail :: [c3_pair_ok]) 3 =
      analyze_concurrent ([] ++ [c3_pair_ok]) 3 :=
  ⟨retry_failure_semantics.1 Nat (fun _ => .raises) (fun _ => rfl) 0 3,
   (retry_failure_semantics.2.2.1 Nat [] [c3_sec_ok] c3_sec_fail 3 (fun _ => rfl)).2.1,
   retry_failure_semantics.2.2.2 [] [c3_pair_ok] c3_pair_fail 3 (fun _ => rfl)⟩

/-! ## Claim theorems: node-pair generation -/

/-- Every generated candidate pair joins nodes of different sections. -/
theorem cross_pairs_mem :
    ∀ (apps : List CircuitApp) (p : CircuitApp × CircuitApp),
      p ∈ cross_pairs apps → p.1.section_num ≠ p.2.section_num := by
  intro apps
  induction apps with
  | nil => intro p hp; simp [cross_pairs] at hp
  | cons a rest ih =>
    intro p hp
    rw [cross_pairs, List.mem_append] at hp
    rcases hp with hp | hp
    · rw [List.mem_filterMap] at hp
      obtain ⟨b, hb, hsome⟩ := hp
      by_cases hsec : a.section_num ≠ b.section_num
      · rw [if_pos hsec, Option.some.injEq] at hsome
        subst hsome
        exact hsec
      · rw [if_neg hsec] at hsome
        simp at hsome
    · exact ih p hp

/-- Claim C9: the generated pair list contains only cross-section pairs; it
is exactly the full cross-section candidate list when at most 1000 candidates
exist, and a 1000-element selection from the candidates otherwise. The
sampler stands for `random.sample` and is assumed to return the requested
number of elements, each drawn from the population. -/
theorem generate_node_pairs_spec
    (sample : List (CircuitApp × CircuitApp) → Nat → List (CircuitApp × CircuitApp))
    (circuit_apps : List CircuitApp)
    (hsample : ∀ (l : List (CircuitApp × CircuitApp)) (k : Nat), k ≤ l.length →
      (sample l k).length = k ∧ ∀ x ∈ sample l k, x ∈ l) :
    (∀ p ∈ generate_node_pairs sample circuit_apps,
      p.1.section_num ≠ p.2.section_num ∧ p ∈ cross_pairs circuit_apps) ∧
    ((cross_pairs circuit_apps).length ≤ 1000 →
      generate_node_pairs sample circuit_apps = cross_pairs circuit_apps) ∧
    (1000 < (cross_pairs circuit_apps).length →
      (generate_node_pairs sample circuit_apps).length = 1000) := by
  simp only [generate_node_pairs]
  by_cases h : (cross_pairs circuit_apps).length > 1000
  · rw [if_pos h]
    obtain ⟨hlen, hmem⟩ := hsample (cross_pairs circuit_apps) 1000 (by omega)
    refine ⟨?_, ?_, fun _ => hlen⟩
    · intro p hp
      have hp2 := hmem p hp
      exact ⟨cross_pairs_mem circuit_apps p hp2, hp2⟩
    · intro hle
      omega
  · rw [if_neg h]
    refine ⟨?_, fun _ => rfl, fun hgt => absurd hgt h⟩
    intro p hp
    exact ⟨cross_pairs_mem circuit_apps p hp, hp⟩

/-- Claim C9, witness: with a take-based sampler and the concrete two-node,
two-section application list (one cross-section candidate, below the 1000
bound), the generated list is exactly the candidate list, and every generated
pair is cross-section. -/
theorem generate_node_pairs_spec_witness :
    generate_node_pairs (fun l k => l.take k) c9_apps = cross_pairs c9_apps ∧
    ∀ p ∈ generate_node_pairs (fun l k => l.take k) c9_apps,
      p.1.section_num ≠ p.2.section_num := by
  have hsample : ∀ (l : List (CircuitApp × CircuitApp)) (k : Nat), k ≤ l.length →
      ((fun (l : List (CircuitApp × CircuitApp)) (k : Nat) => l.take k) l k).length = k ∧
      ∀ x ∈ (fun (l : List (CircuitApp × CircuitApp)) (k : Nat) => l.take k) l k, x ∈ l := by
    intro l k hk
    refine ⟨by simpa using hk, ?_⟩
    intro x hx
    exact (List.take_sublist k l).subset hx
  have h := generate_node_pairs_spec (fun l k => l.take k) c9_apps hsample
  exact ⟨h.2.1 (by decide), fun p hp => (h.1 p hp).1⟩

/-! ## Claim theorems: section spans -/

/-- The stored `(start_line - 1, end_line)` fields of the produced spans are
exactly the 0-based scan bounds. -/
theorem span_bounds_eq (lines : List String) :
    ∀ ms, (split_content_by_sections lines ms).map
      (fun s => (s.start_line - 1, s.end_line)) = span_bounds lines ms := by
  intro ms
  induction ms with
  | nil => rfl
  | cons m rest ih =>
    cases rest with
    | nil => simp [split_content_by_sections, span_bounds]
    | cons m2 r2 =>
      simp only [split_content_by_sections, span_bounds, List.map_cons,
        List.cons.injEq] at ih ⊢
      refine ⟨by simp, ?_⟩
      simpa only [split_content_by_sections, span_bounds, List.map_cons] using ih

/-- The head scan bound starts at the first match's 0-based line. -/
theorem span_bounds_head (lines : List String) (m : SectionMatch)
    (rest : List SectionMatch) :
    ∃ e, span_bounds lines (m :: rest) =
      (m.content_line_num - 1, e) :: span_bounds lines rest := by
  cases rest <;> exact ⟨_, rfl⟩

/-- As many scan-bound pairs as matches. -/
theorem span_bounds_length (lines : List String) :
    ∀ ms, (span_bounds lines ms).length = ms.length := by
  intro ms
  induction ms with
  | nil => rfl
  | cons m rest ih =>
    obtain ⟨e, he⟩ := span_bounds_head lines m rest
    rw [he, List.length_cons, ih, List.length_cons]

/-- The last scan bound ends at the document length. -/
theorem span_bounds_last (lines : List String) :
    ∀ (ms : List SectionMatch) (m : SectionMatch) (rest : List SectionMatch),
      ms = m :: rest →
      ∃ s, (span_bounds lines ms).getLast? = some (s, lines.length) := by
  intro ms
  induction ms with
  | nil => intro m rest h; exact absurd h (by simp)
  | cons a as ih =>
    intro m rest h
    cases as with
    | nil => exact ⟨a.content_line_num - 1, by simp [span_bounds]⟩
    | cons b bs =>
      obtain ⟨s, hs⟩ := ih b bs rfl
      refine ⟨s, ?_⟩
      have hunfold : span_bounds lines (a :: b :: bs) =
          (a.content_line_num - 1, b.content_line_num - 1)
            :: span_bounds lines (b :: bs) := rfl
      obtain ⟨hd, tl, hcons⟩ : ∃ hd tl, span_bounds lines (b :: bs) = hd :: tl := by
        cases bs <;> exact ⟨_, _, rfl⟩
      rw [hunfold, hcons, List.getLast?_cons_cons]
      rw [hcons] at hs
      exact hs

/-- Adjacent scan bounds abut: each span's exclusive end is the next span's
start, by construction. -/
theorem span_bounds_chain (lines : List String) :
    ∀ ms, (span_bounds lines ms).Chain' (fun a b => a.2 = b.1) := by
  intro ms
  induction ms with
  | nil => simp [span_bounds]
  | cons m rest ih =>
    cases rest with
    | nil => simp [span_bounds]
    | cons m2 r2 =>
      obtain ⟨e, he⟩ := span_bounds_head lines m2 r2
      have hunfold : span_bounds lines (m :: m2 :: r2) =
          (m.content_line_num - 1, m2.content_line_num - 1)
            :: span_bounds lines (m2 :: r2) := rfl
      rw [hunfold, he, List.chain'_cons]
      rw [he] at ih
      exact ⟨rfl, ih⟩

/-- On a sorted match list whose line numbers stay within the document, every
scan bound is a valid subrange of the document. -/
theorem span_bounds_valid (lines : List String) :
    ∀ ms,
      ms.Chain' (fun a b => a.content_line_num ≤ b.content_line_num) →
      (∀ m ∈ ms, m.content_line_num ≤ lines.length) →
      ∀ p ∈ span_bounds lines ms, p.1 ≤ p.2 ∧ p.2 ≤ lines.length := by
  intro ms
  induction ms with
  | nil => intro _ _ p hp; simp [span_bounds] at hp
  | cons m rest ih =>
    intro hchain hbound p hp
    cases rest with
    | nil =>
      simp only [span_bounds, List.mem_singleton] at hp
      subst hp
      have := hbound m (by simp)
      exact ⟨by omega, le_refl _⟩
    | cons m2 r2 =>
      rw [List.chain'_cons] at hchain
      obtain ⟨hm, hchain2⟩ := hchain
      have hunfold : span_bounds lines (m :: m2 :: r2) =
          (m.content_line_num - 1, m2.content_line_num - 1)
            :: span_bounds lines (m2 :: r2) := rfl
      rw [hunfold, List.mem_cons] at hp
      rcases hp with rfl | hp2
      · have := hbound m2 (by simp)
        exact ⟨by omega, by omega⟩
      · exact ih hchain2 (fun x hx => hbound x (List.mem_cons_of_mem _ hx)) p hp2

/-- The produced spans are contiguous in stored fields: each span's
`end_line` plus one is the next span's `start_line`. -/
theorem split_chain (lines : List String) :
    ∀ ms, (split_content_by_sections lines ms).Chain'
      (fun s1 s2 => s1.end_line + 1 = s2.start_line) := by
  intro ms
  induction ms with
  | nil => simp [split_content_by_sections]
  | cons m rest ih =>
    cases rest with
    | nil => simp [split_content_by_sections]
    | cons m2 r2 =>
      simp only [split_content_by_sections] at ih ⊢
      rw [List.chain'_cons]
      exact ⟨rfl, ih⟩

/-- A chained list of valid half-open intervals is pairwise disjoint in
order: every earlier interval ends before a later one starts. -/
theorem intervals_pairwise :
    ∀ (l : List (Nat × Nat)), l.Chain' (fun a b => a.2 = b.1) →
      (∀ p ∈ l, p.1 ≤ p.2) → l.Pairwise (fun a b => a.2 ≤ b.1) := by
  intro l
  induction l with
  | nil => intro _ _; exact List.Pairwise.nil
  | cons p rest ih =>
    intro hchain hvalid
    cases rest with
    | nil => exact List.pairwise_singleton _ _
    | cons q r2 =>
      rw [List.chain'_cons] at hchain
      obtain ⟨hpq, hchain2⟩ := hchain
      have hrest := ih hchain2 (fun x hx => hvalid x (List.mem_cons_of_mem _ hx))
      refine List.Pairwise.cons ?_ hrest
      intro b hb
      rcases List.mem_cons.mp hb with rfl | hb2
      · omega
      · have hq := (List.pairwise_cons.mp hrest).1 b hb2
        have hq2 := hvalid q (by simp)
        omega

/-- A nonempty chained list of valid half-open intervals covers exactly the
range from the first interval's start to the last interval's end. -/
theorem intervals_cover :
    ∀ (l : List (Nat × Nat)) (p0 pl : Nat × Nat),
      l.head? = some p0 → l.getLast? = some pl →
      l.Chain' (fun a b => a.2 = b.1) → (∀ p ∈ l, p.1 ≤ p.2) →
      p0.1 ≤ pl.2 ∧
      ∀ j : Nat, (∃ p ∈ l, p.1 ≤ j ∧ j < p.2) ↔ (p0.1 ≤ j ∧ j < pl.2) := by
  intro l
  induction l with
  | nil => intro p0 pl h; simp at h
  | cons p rest ih =>
    intro p0 pl hhead hlast hchain hvalid
    rw [List.head?_cons, Option.some.injEq] at hhead
    subst hhead
    cases rest with
    | nil =>
      have hpl : p = pl := by simpa using hlast
      subst hpl
      refine ⟨hvalid p (by simp), ?_⟩
      intro j
      simp
    | cons q r2 =>
      rw [List.getLast?_cons_cons] at hlast
      rw [List.chain'_cons] at hchain
      obtain ⟨hpq, hchain2⟩ := hchain
      obtain ⟨hql, hcov⟩ := ih q pl rfl hlast hchain2
        (fun x hx => hvalid x (List.mem_cons_of_mem _ hx))
      have hpv := hvalid p (by simp)
      refine ⟨by omega, ?_⟩
      intro j
      constructor
      · intro hex
        obtain ⟨x, hx, hx1, hx2⟩ := hex
        rcases List.mem_cons.mp hx with rfl | hx3
        · omega
        · have := (hcov j).mp ⟨x, hx3, hx1, hx2⟩
          omega
      · intro hj
        obtain ⟨hj1, hj2⟩ := hj
        by_cases hcase : j < p.2
        · exact ⟨p, by simp, hj1, hcase⟩
        · have hq1 : q.1 ≤ j := by omega
          obtain ⟨x, hx, hx1, hx2⟩ := (hcov j).mpr ⟨hq1, hj2⟩
          exact ⟨x, List.mem_cons_of_mem _ hx, hx1, hx2⟩

/-- Claim C4: on a nonempty match list sorted by content line number (with
1-based line numbers inside the document), the derived spans are one per
match; contiguous — each span's `end_line` plus one is the next span's
`start_line`; pairwise non-overlapping; starting at the first matched heading
line; ending at end-of-document; and their 0-based scan ranges cover exactly
the lines from the first matched heading to the end of the document. -/
theorem section_spans_contiguous (lines : List String)
    (ms : List SectionMatch) (m0 : SectionMatch)
    (hhead : ms.head? = some m0)
    (hsorted : ms.Chain' (fun a b => a.content_line_num ≤ b.content_line_num))
    (hpos : ∀ m ∈ ms, 1 ≤ m.content_line_num)
    (hbound : ∀ m ∈ ms, m.content_line_num ≤ lines.length) :
    (split_content_by_sections lines ms).length = ms.length ∧
    (split_content_by_sections lines ms).Chain'
      (fun s1 s2 => s1.end_line + 1 = s2.start_line) ∧
    (split_content_by_sections lines ms).Pairwise
      (fun s1 s2 => s1.end_line ≤ s2.start_line - 1) ∧
    ((split_content_by_sections lines ms).head?.map (fun s => s.start_line))
      = some m0.content_line_num ∧
    (∃ sp, (split_content_by_sections lines ms).getLast? = some sp ∧
      sp.end_line = lines.length) ∧
    (∀ j : Nat,
      (∃ s ∈ split_content_by_sections lines ms,
        s.start_line - 1 ≤ j ∧ j < s.end_line) ↔
      (m0.content_line_num - 1 ≤ j ∧ j < lines.length)) := by
  obtain ⟨m, rest, rfl⟩ : ∃ m rest, ms = m :: rest := by
    cases ms with
    | nil => simp at hhead
    | cons a as => exact ⟨a, as, rfl⟩
  rw [List.head?_cons, Option.some.injEq] at hhead
  subst hhead
  have hmapeq := span_bounds_eq lines (m :: rest)
  refine ⟨?_, split_chain lines (m :: rest), ?_, ?_, ?_, ?_⟩
  · have h1 := congrArg List.length hmapeq
    rw [List.length_map, span_bounds_length] at h1
    exact h1
  · have hpw := intervals_pairwise (span_bounds lines (m :: rest))
      (span_bounds_chain lines (m :: rest))
      (fun p hp => (span_bounds_valid lines (m :: rest) hsorted hbound p hp).1)
    rw [← hmapeq, List.pairwise_map] at hpw
    exact hpw
  · have hm1 := hpos m (by simp)
    cases rest with
    | nil =>
      simp only [split_content_by_sections, List.head?_cons, Option.map_some']
      congr 1
      omega
    | cons m2 r2 =>
      simp only [split_content_by_sections, List.head?_cons, Option.map_some']
      congr 1
      omega
  · obtain ⟨s, hs⟩ := span_bounds_last lines (m :: rest) m rest rfl
    rw [← hmapeq, List.getLast?_map] at hs
    cases hlast : (split_content_by_sections lines (m :: rest)).getLast? with
    | none => rw [hlast] at hs; simp at hs
    | some sp =>
      rw [hlast] at hs
      refine ⟨sp, rfl, ?_⟩
      simp only [Option.map_some'] at hs
      exact congrArg Prod.snd (Option.some.inj hs)
  · obtain ⟨e, he⟩ := span_bounds_head lines m rest
    obtain ⟨s, hs⟩ := span_bounds_last lines (m :: rest) m rest rfl
    have hcov := intervals_cover (span_bounds lines (m :: rest))
      (m.content_line_num - 1, e) (s, lines.length)
      (by rw [he]; rfl) hs
      (span_bounds_chain lines (m :: rest))
      (fun p hp => (span_bounds_valid lines (m :: rest) hsorted hbound p hp).1)
    intro j
    have hiff := hcov.2 j
    rw [← hmapeq] at hiff
    simp only [List.mem_map] at hiff
    constructor
    · intro hex
      obtain ⟨sp, hsp, h1, h2⟩ := hex
      exact hiff.mp ⟨(sp.start_line - 1, sp.end_line), ⟨sp, hsp, rfl⟩, h1, h2⟩
    · intro hj
      obtain ⟨p, ⟨sp, hsp, hfp⟩, h1, h2⟩ := hiff.mpr hj
      subst hfp
      exact ⟨sp, hsp, h1, h2⟩

/-- Claim C4, witness: the span properties applied to the concrete four-line
document with ms at content lines 1 and 3. -/
theorem section_spans_contiguous_witness :
    (split_content_by_sections c4_lines c4_matches).length = c4_matches.length ∧
    (split_content_by_sections c4_lines c4_matches).Chain'
      (fun s1 s2 => s1.end_line + 1 = s2.start_line) ∧
    (split_content_by_sections c4_lines c4_matches).Pairwise
      (fun s1 s2 => s1.end_line ≤ s2.start_line - 1) ∧
    ((split_content_by_sections c4_lines c4_matches).head?.map
      (fun s => s.start_line)) = some c4_match1.content_line_num ∧
    (∃ sp, (split_content_by_sections c4_lines c4_matches).getLast? = some sp ∧
      sp.end_line = c4_lines.length) ∧
    (∀ j : Nat,
      (∃ s ∈ split_content_by_sections c4_lines c4_matches,
        s.start_line - 1 ≤ j ∧ j < s.end_line) ↔
      (c4_match1.content_line_num - 1 ≤ j ∧ j < c4_lines.length)) := by
  refine section_spans_contiguous c4_lines c4_matches c4_match1 rfl ?_ ?_ ?_
  · rw [c4_matches, List.chain'_cons]
    exact ⟨by norm_num [c4_match1, c4_match2], List.chain'_singleton _⟩
  · intro x hx
    rw [c4_matches, List.mem_cons, List.mem_singleton] at hx
    rcases hx with rfl | rfl <;> norm_num [c4_match1, c4_match2]
  · intro x hx
    rw [c4_matches, List.mem_cons, List.mem_singleton] at hx
    rcases hx with rfl | rfl <;> norm_num [c4_match1, c4_match2, c4_lines]

end CalKG
